import Mathlib

/-!
A shallow embedding of the batch-bump repository (bulk npm install/remove +
git commit/push across many repositories) and proofs about the claims of its
specification.

Conventions of the embedding:
* JS strings that may be `undefined` are modelled as `String` with `""`
  standing for the absent/falsy value (JS `x || y` behaves identically on
  `""` and `undefined` everywhere the embedded code reads these fields).
* Every external process invocation (child_process `exec`/`execSync`, and
  git operations issued through the `simple-git` handle bound to a
  repository path) is recorded as an `Eff.run c dir` event, where `dir` is
  the directory explicitly threaded into that invocation — via the `cwd`
  exec option, via `git -C <dir>`, or via the `simpleGit(repoPath)` binding.
  `dir = none` means the invocation relied on the ambient current directory.
  `process.chdir` is recorded as an `Eff.chdir` event.
* The outside world (exit status / output of each external command) is an
  explicit environment structure passed to each embedded function, with one
  field per command the source code issues; the embedded code consults a
  field exactly where the source consults the corresponding result.
-/

deriving instance DecidableEq for Except

namespace BatchBump

/-- JS truthiness for the string-valued fields used by the code
(`repo.branch`, `repo.name`, ...): `""` and `undefined` are falsy. -/
def truthy (s : String) : Bool := s ≠ ""

/-- A repository descriptor from `repos.json`.  Absent fields are `""`. -/
structure RepoDesc where
  name : String := ""
  path : String := ""
  branch : String := ""
  branchName : String := ""
  remote : String := ""
deriving Repr, DecidableEq

/-- Models the Node builtin `path.resolve(base, p)` for the arguments this program uses
(a base directory plus a relative folder name from `repos.json`). -/
def pathResolve (base p : String) : String := base ++ "/" ++ p

/-- JS `String.prototype.includes`, as a substring (infix) test. -/
def jsIncludes (s sub : String) : Bool := decide (sub.data <:+: s.data)

/-- JS `pre` is a prefix of `s` (used to state "message names the action"). -/
def startsWithStr (pre s : String) : Bool := decide (pre.data <+: s.data)

/-- Embeds `err.message.split("\n")[0]` — first line of an error message. -/
def firstLine (s : String) : String := (s.splitOn "\n").headD s

/-- JS `Array.prototype.join(", ")`. -/
def joinComma (xs : List String) : String := String.intercalate ", " xs

/-- JS `Array.prototype.join(" ")`. -/
def joinSpace (xs : List String) : String := String.intercalate " " xs

/-- Models JS `String.prototype.trim` structurally (drop whitespace from
both ends); used where the source calls `.trim()` on captured stdout. -/
def jsTrim (s : String) : String :=
  ⟨((s.data.dropWhile (fun c => c.isWhitespace)).reverse.dropWhile
      (fun c => c.isWhitespace)).reverse⟩

/-- The benign-commit-failure predicate of `processRepo.js`:
`message.includes("nothing to commit") || message.includes("no changes added to commit")`. -/
def isBenignCommitError (m : String) : Bool :=
  jsIncludes m "nothing to commit" || jsIncludes m "no changes added to commit"

/-- The external commands the programs issue (arguments kept symbolic). -/
inductive Cmd where
  /-- command `git rev-parse --verify <branch>` (read) -/
  | revParse (branch : String)
  /-- command `git show-ref --verify --quiet refs/heads/<branch>` (read) -/
  | showRef (branch : String)
  /-- command `git fetch origin` -/
  | fetchOrigin
  /-- command `git fetch origin main` -/
  | fetchOriginMain
  /-- command `git branch --force main origin/main` -/
  | branchForceMain
  /-- command `git checkout --no-track -b <branch> main` -/
  | checkoutNoTrackB (branch : String)
  /-- command `git checkout -B <branch>` (creates the branch, or resets it to HEAD) -/
  | checkoutB (branch : String)
  /-- command `npm <install|uninstall> <packages>` -/
  | npm (command : String) (packages : List String)
  /-- command `git add package.json package-lock.json` -/
  | addManifests
  /-- command `git commit -m <message> --no-verify` -/
  | commit (message : String)
  /-- command `git push origin <branch> --no-verify` -/
  | push (branch : String)
  /-- command `git fetch <remote> --prune` -/
  | fetchPrune (remote : String)
  /-- command `git branch -r --list <remote>/<branch>` (read) -/
  | branchRemoteList (remote branch : String)
  /-- command `git checkout --track -b <branch> <remote>/<branch>` -/
  | checkoutTrack (branch remoteRef : String)
  /-- command `git fetch <remote> refs/heads/<branch>:refs/heads/<branch>` -/
  | fetchBranchRef (remote branch : String)
  /-- command `git checkout <branch>` -/
  | checkout (branch : String)
  /-- command `git fetch <remote> main:refs/remotes/<remote>/main` -/
  | fetchMainIntoRemoteRef (remote : String)
  /-- command `git checkout -b <branch> <start>` -/
  | checkoutBFrom (branch start : String)
  /-- command `git checkout main && git checkout -b <branch>` (last fallback) -/
  | checkoutMainThenB (branch : String)
  /-- an arbitrary shell command (`exec` mode) -/
  | sh (command : String)
deriving Repr, DecidableEq

/-- Commands that only read repository state. -/
def Cmd.isReadOnly : Cmd → Bool
  | .revParse _ => true
  | .showRef _ => true
  | .branchRemoteList _ _ => true
  | _ => false

/-- Commands that create a local branch (any branch-creation attempt). -/
def Cmd.isBranchCreation : Cmd → Bool
  | .checkoutNoTrackB _ => true
  | .checkoutB _ => true
  | .checkoutTrack _ _ => true
  | .fetchBranchRef _ _ => true
  | .checkoutBFrom _ _ => true
  | .checkoutMainThenB _ => true
  | _ => false

/-- Commands that move/reset an already-existing local branch pointer
(git semantics: `checkout -B` resets the branch to HEAD if it exists;
`branch --force` moves the named branch). -/
def Cmd.resetsBranchPointer : Cmd → Bool
  | .checkoutB _ => true
  | .branchForceMain => true
  | _ => false

/-- An observable external effect of a task. -/
inductive Eff where
  /-- an external command invocation; `dir` is the explicitly threaded
  working directory (`cwd` option / `git -C` / `simpleGit(repoPath)`),
  `none` when the invocation relies on the ambient process directory. -/
  | run (c : Cmd) (dir : Option String)
  /-- effect of `process.chdir dir` -/
  | chdir (dir : String)
deriving Repr, DecidableEq

/-- Whether an effect is a `checkout --track -b` invocation (creation of a
local branch tracking a remote one). -/
def Eff.isTrackingCheckout : Eff → Bool
  | .run (.checkoutTrack _ _) _ => true
  | _ => false

/-- Whether an effect creates the target branch from a `main` ref rather
than from the remote branch. -/
def Eff.isFromMainCreation : Eff → Bool
  | .run (.checkoutNoTrackB _) _ => true
  | .run (.checkoutBFrom _ _) _ => true
  | .run (.checkoutMainThenB _) _ => true
  | .run (.checkoutB _) _ => true
  | _ => false

/-- The result record of the Command Runner (`utils.runCmd`). -/
structure CmdResult where
  ok : Bool
  stdout : String
  stderr : String
  error : Option String := none
  code : Option Int := none
deriving Repr, DecidableEq

/-- What the underlying `child_process.exec` promise did: resolved with
output, or rejected with an error carrying captured output, a message and
an optional exit code. -/
inductive ExecOutcome where
  | success (stdout stderr : String)
  | failure (stdout stderr message : String) (code : Option Int)
deriving Repr, DecidableEq

/-- Embeds `utils.runCmd` (src/unnamed/part_005 lines 13–27): wraps the exec
outcome into a `CmdResult`; the catch arm never rethrows, and populates
`error` with `err.stderr || err.message`. -/
def runCmd (o : ExecOutcome) : CmdResult :=
  match o with
  | .success out err => { ok := true, stdout := out, stderr := err }
  | .failure out err msg code =>
      { ok := false, stdout := out, stderr := err
        error := some (if err ≠ "" then err else msg), code := code }

/-- The `maxBuffer` actually passed to `exec` by `runCmd`:
`{ maxBuffer: 10 * 1024 * 1024, ...execOpts }` — the spread comes second,
so a `maxBuffer` present in the options of the caller overrides the default. -/
def effectiveMaxBuffer (optsMaxBuffer : Option Nat) : Nat :=
  match optsMaxBuffer with
  | some m => m
  | none => 10 * 1024 * 1024

/-- The exit-status (ok/failure) of each external command consulted by
`ensureBranchFromLocalMain` (src/batch/batch.js lines 185–221).  One field
per command issued; the source awaits every command but only reads the
results of `rev-parse` and of the final `checkout`. -/
structure LocalMainEnv where
  revParseOk : Bool
  fetchOriginOk : Bool
  fetchOriginMainOk : Bool
  branchForceOk : Bool
  checkoutNoTrackOk : Bool
deriving Repr, DecidableEq

/-- Embeds `ensureBranchFromLocalMain(repoPath, branchName, isVerbose)` of
src/batch/batch.js: every command is issued as
`runCmd("git -C \"repoPath\" " ++ cmd)` (directory threaded via `-C`);
returns whether the branch now exists, plus the trace of invocations.
If `rev-parse --verify` succeeds the function returns `true` at once;
otherwise it awaits `fetch origin`, `fetch origin main`,
`branch --force main origin/main` — discarding their results — and
returns the success of `checkout --no-track -b branchName main`. -/
def ensureBranchFromLocalMain (repoPath branchName : String) (env : LocalMainEnv) :
    Bool × List Eff :=
  if env.revParseOk then
    (true, [.run (.revParse branchName) (some repoPath)])
  else
    (env.checkoutNoTrackOk,
     [.run (.revParse branchName) (some repoPath),
      .run .fetchOrigin (some repoPath),
      .run .fetchOriginMain (some repoPath),
      .run .branchForceMain (some repoPath),
      .run (.checkoutNoTrackB branchName) (some repoPath)])

/-- The external-command results consulted by `ensureBranchExists`
(the earlier batch.js revision, src/unnamed/part_003 lines 215–299). -/
structure EnsureEnv where
  fetchPruneOk : Bool
  localShowRefOk : Bool
  remoteListOk : Bool
  remoteListStdout : String
  checkoutTrackOk : Bool
  fetchBranchRefOk : Bool
  checkoutAfterFetchOk : Bool
  fetchMainRefOk : Bool
  checkoutFromRemoteMainOk : Bool
  fallbackLocalMainOk : Bool
deriving Repr, DecidableEq

/-- Embeds `ensureBranchExists(repoPath, branch, remote, verboseFlag)` of the
earlier batch.js revision (src/unnamed/part_003 lines 215–299): fetch
(prune) first — failure is terminal; then local `show-ref` check; then
remote `branch -r --list`; tracking checkout when the remote has the
branch (with a fetch-ref + checkout retry), else creation from
`<remote>/main` with a local-`main` fallback. -/
def ensureBranchExists (repoPath branch remote : String) (env : EnsureEnv) :
    Bool × List Eff :=
  let e0 : List Eff := [.run (.fetchPrune remote) (some repoPath)]
  if !env.fetchPruneOk then (false, e0)
  else
    let e1 := e0 ++ [.run (.showRef branch) (some repoPath)]
    if env.localShowRefOk then (true, e1)
    else
      let e2 := e1 ++ [.run (.branchRemoteList remote branch) (some repoPath)]
      let remoteHasBranch := env.remoteListOk && (jsTrim env.remoteListStdout).length > 0
      if remoteHasBranch then
        let e3 := e2 ++ [.run (.checkoutTrack branch (remote ++ "/" ++ branch)) (some repoPath)]
        if env.checkoutTrackOk then (true, e3)
        else
          let e4 := e3 ++ [.run (.fetchBranchRef remote branch) (some repoPath)]
          if !env.fetchBranchRefOk then (false, e4)
          else
            let e5 := e4 ++ [.run (.checkout branch) (some repoPath)]
            (env.checkoutAfterFetchOk, e5)
      else
        let e3 := e2 ++ [.run (.fetchMainIntoRemoteRef remote) (some repoPath),
                         .run (.checkoutBFrom branch (remote ++ "/main")) (some repoPath)]
        if env.checkoutFromRemoteMainOk then (true, e3)
        else
          let e4 := e3 ++ [.run (.checkoutMainThenB branch) (some repoPath)]
          (env.fallbackLocalMainOk, e4)

/-- The terminal record one repository contributes to the shared `results`
array.  Two shapes occur in the source:
`{name, status, message}` (processRepo and handleExec) and
`{repo, ok, error?, dryRun?, info?}` (handleRepos pre-flight paths). -/
inductive ResultRecord where
  | statusRec (name status message : String)
  | okRec (repo : String) (ok : Bool) (error : Option String)
      (dryRun : Bool) (info : Option String)
deriving Repr, DecidableEq

/-- Whether a record marks a dry run (the `dryRun: true` flag of the
pre-flight records, or the DRY RUN status of processRepo records). -/
def ResultRecord.isDryRunRec : ResultRecord → Bool
  | .okRec _ _ _ d _ => d
  | .statusRec _ st _ => st = "☑️ DRY RUN"

/-- The human-readable description carried by a record (`info` for the
pre-flight records, `message` for status records). -/
def ResultRecord.infoOrMessage : ResultRecord → String
  | .okRec _ _ _ _ i => i.getD ""
  | .statusRec _ _ m => m

/-- Reads `r.status` as the exit-code predicate does: `none` models a record by the exit-code predicate: `none` models a record
without a `status` field (reading `.includes` of it throws in JS). -/
def statusOf : ResultRecord → Option String
  | .statusRec _ st _ => some st
  | .okRec _ _ _ _ _ => none

/-- The predicate `handleRepos` hands to `finishAndExit`
(src/batch/batch.js line 320): `(r) => r.status.includes("Error")`.
`none` models the TypeError raised when `r.status` is `undefined`. -/
def handleReposFailCheck (r : ResultRecord) : Option Bool :=
  (statusOf r).map (fun st => jsIncludes st "Error")

/-- Embeds `utils.checkResults` (src/unnamed/part_005 lines 144–148):
`failed = results.filter(failCheck); exitCode = failed.length ? 2 : 0`,
with a throwing `failCheck` modelled as `Option` (a throw anywhere makes
the whole computation throw, modelled as `none`). -/
def checkResultsExitCode (results : List ResultRecord)
    (failCheck : ResultRecord → Option Bool) : Option Nat :=
  (results.mapM failCheck).map (fun flags => if flags.any id then 2 else 0)

/-- The outcome of each external operation that `processRepo`
(src/processRepo.js) performs, as the `Except`-style result the awaited
promise produced (`Except.error m` = the operation threw with message `m`).
`writeLog` stands for the `fs.writeFileSync` of the log file. -/
structure ProcEnv where
  checkoutB : Except String Unit
  npm : Except String Unit
  add : Except String Unit
  commit : Except String Unit
  push : Except String Unit
  writeLog : Except String Unit
deriving Repr, DecidableEq

/-- What one call of `processRepo` did: the records it pushed onto
`results`, its external-command trace, and the exception escaping it
(if any). -/
structure ProcResult where
  pushed : List ResultRecord
  trace : List Eff
  thrown : Option String
deriving Repr, DecidableEq

/-- The working directory `processRepo` resolves for itself
(src/processRepo.js line 15): `path.resolve(basePath, repo.name)`. -/
def processRepoPath (repo : RepoDesc) (basePath : String) : String :=
  pathResolve basePath repo.name

/-- Embeds `processRepo(repo, command, packages, {dryRun, skipPush, ...}, basePath,
results)` of src/processRepo.js.  The simple-git handle and the `run`
helper both operate in `repoPath`, so every invocation carries it as its
explicit directory.  Control flow: dry-run short-circuit; otherwise
`git checkout -B` (when a branch is declared), `npm <command>`, `git add`,
`git commit --no-verify` with the benign nothing-to-commit handler,
`git push` unless `skipPush`, then the log write and the Success record;
any other failure reaches the outer catch, which writes the log and pushes
an Error record.  A failing log write escapes `processRepo` (the outer
catch rethrows nothing itself, but its own `writeLog()` call throws). -/
def processRepo (repo : RepoDesc) (command : String) (packages : List String)
    (dryRun skipPush : Bool) (basePath : String) (env : ProcEnv) : ProcResult :=
  let repoPath := processRepoPath repo basePath
  let branchName := repo.branch
  let logBase := repo.name ++ ".log"
  if dryRun then
    { pushed := [.statusRec repo.name "☑️ DRY RUN"
        ("Would " ++ command ++ " " ++ joinComma packages ++ " on branch " ++ branchName)]
      trace := [], thrown := none }
  else
    let onError (m : String) (tr : List Eff) : ProcResult :=
      match env.writeLog with
      | .ok _ =>
          { pushed := [.statusRec repo.name "❌ Error"
              (firstLine m ++ " (log: " ++ logBase ++ ")")]
            trace := tr, thrown := none }
      | .error wl => { pushed := [], trace := tr, thrown := some wl }
    let t0 : List Eff :=
      if truthy branchName then [.run (.checkoutB branchName) (some repoPath)] else []
    match (if truthy branchName then env.checkoutB else .ok ()) with
    | .error m => onError m t0
    | .ok _ =>
      let t1 := t0 ++ [.run (.npm command packages) (some repoPath)]
      match env.npm with
      | .error m => onError m t1
      | .ok _ =>
        let t2 := t1 ++ [.run .addManifests (some repoPath)]
        match env.add with
        | .error m => onError m t2
        | .ok _ =>
          let commitMessage :=
            (if command = "install" then "Install" else "Remove") ++ ": " ++ joinComma packages
          let t3 := t2 ++ [.run (.commit commitMessage) (some repoPath)]
          match env.commit with
          | .error m =>
            if isBenignCommitError m then
              match env.writeLog with
              | .ok _ =>
                  { pushed := [.statusRec repo.name "⚠️ Skipped"
                      ("No changes to commit (log: " ++ logBase ++ ")")]
                    trace := t3, thrown := none }
              | .error wl => { pushed := [], trace := t3, thrown := some wl }
            else onError m t3
          | .ok _ =>
            let t4 :=
              if skipPush then t3 else t3 ++ [.run (.push branchName) (some repoPath)]
            match (if skipPush then .ok () else env.push) with
            | .error m => onError m t4
            | .ok _ =>
              match env.writeLog with
              | .ok _ =>
                  { pushed := [.statusRec repo.name "✅ Success"
                      ("Committed on " ++ branchName ++ " (log: " ++ logBase ++ ")")]
                    trace := t4, thrown := none }
              | .error wl => { pushed := [], trace := t4, thrown := some wl }

/-- The `JSON.stringify(repo)` fallback identifier of `getRepoInfo`
(reached only when a descriptor has neither `name` nor `path`); fields
modelled as absent (`""`) are omitted, as `JSON.stringify` omits
`undefined` properties. -/
def stringifyRepo (r : RepoDesc) : String :=
  let fields := [("name", r.name), ("path", r.path), ("branch", r.branch),
                 ("branchName", r.branchName), ("remote", r.remote)]
  let present := (fields.filter (fun f => truthy f.2)).map
    (fun f => "\"" ++ f.1 ++ "\":\"" ++ f.2 ++ "\"")
  "\x7b" ++ String.intercalate "," present ++ "\x7d"

/-- Embeds `utils.getRepoInfo(repo, basePath)` (src/unnamed/part_005 lines
121–125): `repoName = repo.name || repo.path || JSON.stringify(repo)`;
`repoPath = path.resolve(basePath, repo.path || repo.name || repoName)`.
Note the asymmetry: the name prefers `name`, the path prefers `path`. -/
def getRepoInfo (repo : RepoDesc) (basePath : String) : String × String :=
  let repoName :=
    if truthy repo.name then repo.name
    else if truthy repo.path then repo.path
    else stringifyRepo repo
  let repoPath := pathResolve basePath
    (if truthy repo.path then repo.path
     else if truthy repo.name then repo.name
     else repoName)
  (repoName, repoPath)

/-- The external observations one `handleRepos` task makes before (and
while) running `processRepo`: directory existence, the result of the
`localBranchExists` probe, and the environments of the branch resolver
and of `processRepo`. -/
structure TaskEnv where
  pathExists : Bool
  showRefOk : Bool
  branchEnv : LocalMainEnv
  procEnv : ProcEnv
deriving Repr, DecidableEq

/-- What one `handleRepos` task contributed: the records appended to the
shared `results` array and the trace of external effects. -/
structure TaskResult where
  records : List ResultRecord
  trace : List Eff
deriving Repr, DecidableEq

/-- One task of `handleRepos` (src/batch/batch.js lines 223–315): the
body of `selected.map((repo) => limit(async () => ...))`.  Pipeline:
path-existence check; `localBranchExists` probe when a branch is declared
(`git -C <repoPath> show-ref ...`, issued even in dry-run mode); dry-run
short-circuits; `ensureBranchFromLocalMain` when the branch is missing;
then the dry-run processRepo short-circuit or the real `processRepo` call,
whose escaping exception is converted into an `okRec` error record. -/
def handleReposTask (repo : RepoDesc) (command : String) (packages : List String)
    (dryRun skipPush : Bool) (basePath : String) (env : TaskEnv) : TaskResult :=
  let info := getRepoInfo repo basePath
  let repoName := info.1
  let repoPath := info.2
  if !env.pathExists then
    { records := [.okRec repoName false (some ("Path not found: " ++ repoPath)) false none]
      trace := [] }
  else
    let expectedBranch := if truthy repo.branch then repo.branch else repo.branchName
    -- what runs after the branch block falls through (`t` = trace so far)
    let callProcessRepo : List Eff → TaskResult := fun t =>
      if dryRun then
        { records := [.okRec repoName true none true
            (some ("Would run processRepo for " ++ repoName))]
          trace := t }
      else
        let pr := processRepo repo command packages dryRun skipPush basePath env.procEnv
        match pr.thrown with
        | none => { records := pr.pushed, trace := t ++ pr.trace }
        | some m =>
            { records := pr.pushed ++ [.okRec repoName false (some m) false none]
              trace := t ++ pr.trace }
    if truthy expectedBranch then
      let t : List Eff := [.run (.showRef expectedBranch) (some repoPath)]
      if env.showRefOk then callProcessRepo t
      else if dryRun then
        { records := [.okRec repoName true none true
            (some ("Would create branch " ++ expectedBranch
                   ++ " after fetching remote refs"))]
          trace := t }
      else
        let c := ensureBranchFromLocalMain repoPath expectedBranch env.branchEnv
        if c.1 then callProcessRepo (t ++ c.2)
        else
          { records := [.okRec repoName false
              (some ("branch " ++ expectedBranch
                     ++ " still not present after attempted creation")) false none]
            trace := t ++ c.2 }
    else callProcessRepo []

/-- The whole `handleRepos` run over the selected repositories: each task
appends its records to the shared `results` collection (p-limit bounds
concurrency but every task still contributes its own records exactly
once; the model concatenates them in selection order, which preserves the
count). -/
def handleReposRun (selected : List RepoDesc) (command : String)
    (packages : List String) (dryRun skipPush : Bool) (basePath : String)
    (envs : RepoDesc → TaskEnv) : List ResultRecord :=
  (selected.map (fun r =>
    (handleReposTask r command packages dryRun skipPush basePath (envs r)).records)).flatten

/-- Outcomes of the five `execSync` calls of the legacy sequential runner. -/
structure LegacyEnv where
  checkoutB : Except String Unit
  npm : Except String Unit
  add : Except String Unit
  commit : Except String Unit
  push : Except String Unit
deriving Repr, DecidableEq

/-- One iteration of the `config.repositories.forEach` loop of the legacy
runner `src/batch.js` (lines 40–106): in the non-dry path it calls
`process.chdir(repoPath)` (line 68) and then drives `execSync` with
`{stdio: "inherit"}` only — no `cwd` option — so every command runs in
the ambient process directory. -/
def legacyBatchTask (repo : RepoDesc) (command : String) (packages : List String)
    (dryRun skipPush : Bool) (basePath : String) (env : LegacyEnv) :
    ResultRecord × List Eff :=
  let repoPath := pathResolve basePath repo.name
  let branchName := repo.branch
  if dryRun then
    (.statusRec repo.name "☑️ DRY RUN"
       ("Would " ++ command ++ " " ++ joinComma packages ++ " on branch " ++ branchName), [])
  else
    let onError (m : String) (tr : List Eff) : ResultRecord × List Eff :=
      (.statusRec repo.name "❌ Error" (firstLine m), tr)
    let t0 : List Eff :=
      [.chdir repoPath] ++
        (if truthy branchName then [.run (.checkoutB branchName) none] else [])
    match (if truthy branchName then env.checkoutB else .ok ()) with
    | .error m => onError m t0
    | .ok _ =>
      let t1 := t0 ++ [.run (.npm command packages) none]
      match env.npm with
      | .error m => onError m t1
      | .ok _ =>
        let t2 := t1 ++ [.run .addManifests none]
        match env.add with
        | .error m => onError m t2
        | .ok _ =>
          let commitMessage :=
            (if command = "install" then "Install" else "Remove") ++ ": " ++ joinComma packages
          let t3 := t2 ++ [.run (.commit commitMessage) none]
          match env.commit with
          | .error m => onError m t3
          | .ok _ =>
            let t4 :=
              if skipPush then t3 else t3 ++ [.run (.push branchName) none]
            match (if skipPush then .ok () else env.push) with
            | .error m => onError m t4
            | .ok _ =>
              (.statusRec repo.name "✅ Success" ("Committed on " ++ branchName), t4)

/-! ### Helper lemmas -/

theorem pathResolve_right_inj {base p q : String}
    (h : pathResolve base p = pathResolve base q) : p = q := by
  have hd := congrArg String.data h
  simp only [pathResolve, String.data_append] at hd
  rw [List.append_assoc, List.append_assoc] at hd
  exact String.ext (List.append_cancel_left (List.append_cancel_left hd))

theorem ensureBranchFromLocalMain_dirs (rp b : String) (env : LocalMainEnv) :
    ∀ e ∈ (ensureBranchFromLocalMain rp b env).2, ∃ c, e = Eff.run c (some rp) := by
  intro e he
  by_cases h : env.revParseOk
  · simp [ensureBranchFromLocalMain, h] at he
    exact ⟨_, he⟩
  · simp [ensureBranchFromLocalMain, h] at he
    rcases he with rfl | rfl | rfl | rfl | rfl <;> exact ⟨_, rfl⟩

theorem processRepo_dirs (repo : RepoDesc) (command : String) (packages : List String)
    (dryRun skipPush : Bool) (basePath : String) (env : ProcEnv) :
    ∀ e ∈ (processRepo repo command packages dryRun skipPush basePath env).trace,
      ∃ c, e = Eff.run c (some (processRepoPath repo basePath)) := by
  intro e he
  simp only [processRepo] at he
  repeat' split at he
  all_goals try simp at he
  all_goals repeat' (rcases he with rfl | he)
  all_goals exact ⟨_, rfl⟩

/-- Lemma: `processRepo` pushes exactly one record when it returns normally, and
none when an exception escapes it. -/
theorem processRepo_pushed_count (repo : RepoDesc) (command : String)
    (packages : List String) (dryRun skipPush : Bool) (basePath : String)
    (env : ProcEnv) :
    ((processRepo repo command packages dryRun skipPush basePath env).thrown = none ∧
      (processRepo repo command packages dryRun skipPush basePath env).pushed.length = 1) ∨
    ((processRepo repo command packages dryRun skipPush basePath env).thrown ≠ none ∧
      (processRepo repo command packages dryRun skipPush basePath env).pushed = []) := by
  simp only [processRepo]
  repeat' split
  all_goals simp

theorem startsWithStr_append_of (pre lit s : String)
    (h : startsWithStr pre lit = true) : startsWithStr pre (lit ++ s) = true := by
  simp only [startsWithStr, decide_eq_true_eq, String.data_append] at *
  exact h.trans (List.prefix_append _ _)

/-- Lemma: every `handleRepos` task appends exactly one record to the
shared results collection, on every control path. -/
theorem handleReposTask_one_record (repo : RepoDesc) (command : String)
    (packages : List String) (dryRun skipPush : Bool) (basePath : String)
    (env : TaskEnv) :
    (handleReposTask repo command packages dryRun skipPush basePath env).records.length
      = 1 := by
  simp only [handleReposTask]
  repeat' split
  all_goals try simp
  all_goals
    rcases processRepo_pushed_count repo command packages dryRun skipPush basePath
      env.procEnv with ⟨h1, h2⟩ | ⟨h1, h2⟩ <;> simp_all

/-! ### Claims -/

/-- C9 counterexample: the 10 MiB output buffer is only a default, not a
floor — an explicit `maxBuffer` in the options passed to `runCmd`
overrides it (`{ maxBuffer: 10 * 1024 * 1024, ...execOpts }` lets the
spread win), so with options carrying `maxBuffer: 1` the effective buffer
is 1 byte, below 10 MiB. -/
theorem c9_counterexample :
    effectiveMaxBuffer (some 1) = 1 ∧ effectiveMaxBuffer (some 1) < 10 * 1024 * 1024 := by
  constructor
  · rfl
  · decide

/-- C9 (amended): `runCmd` never raises — for every exec outcome it
returns a structured `CmdResult`: success gives `ok:true` with the
captured stdout/stderr, failure gives `ok:false` with `error` populated
from stderr when nonempty, else from the raised message; the output
buffer defaults to 10 MiB when the caller passes no `maxBuffer` (as at
every call site in this repository). -/
theorem c9_runCmd_total_shape (s e m : String) (c : Option Int) :
    runCmd (.success s e) = { ok := true, stdout := s, stderr := e } ∧
    runCmd (.failure s e m c) =
      { ok := false, stdout := s, stderr := e
        error := some (if e ≠ "" then e else m), code := c } ∧
    effectiveMaxBuffer none = 10 * 1024 * 1024 :=
  ⟨rfl, rfl, rfl⟩

/-- C2: the exit-code law fails on the code.  `handleRepos` hands
`finishAndExit` the predicate `(r) => r.status.includes("Error")`, but
its own pre-flight paths push records with no `status` field, so for a
run whose results contain a path-not-found record the exit-code
computation throws a TypeError (modelled as `none`) instead of producing
2; the law does hold on pure status records. -/
theorem c2_exit_code_crashes_on_preflight_record :
    (handleReposTask { name := "web-app1" } "install" ["lodash"] false false "/base"
        { pathExists := false, showRefOk := false
          branchEnv := ⟨false, false, false, false, false⟩
          procEnv := ⟨.ok (), .ok (), .ok (), .ok (), .ok (), .ok ()⟩ }).records
      = [.okRec "web-app1" false (some "Path not found: /base/web-app1") false none] ∧
    checkResultsExitCode
        [.okRec "web-app1" false (some "Path not found: /base/web-app1") false none]
        handleReposFailCheck = none ∧
    checkResultsExitCode [.statusRec "a" "❌ Error" "boom"] handleReposFailCheck
      = some 2 ∧
    checkResultsExitCode
        [.statusRec "a" "✅ Success" "x", .statusRec "b" "⚠️ Skipped" "y",
         .statusRec "c" "☑️ DRY RUN" "z"] handleReposFailCheck = some 0 := by
  refine ⟨?_, ?_, ?_, ?_⟩ <;> decide

/-- C10: when a descriptor carries both a `name` and a `path` and they
differ, the pre-flight checks of the orchestrator operate on
`basePath/path` (via `getRepoInfo`) while `processRepo` resolves its
working directory as `basePath/name` and issues all of its commands
there, so the checked directory and the mutated directory of the same
task are different. -/
theorem c10_checked_dir_ne_mutated_dir (basePath nm p branch : String)
    (hn : truthy nm = true) (hp : truthy p = true) (hne : nm ≠ p) :
    (getRepoInfo { name := nm, path := p, branch := branch } basePath).2
      = pathResolve basePath p ∧
    processRepoPath { name := nm, path := p, branch := branch } basePath
      = pathResolve basePath nm ∧
    (getRepoInfo { name := nm, path := p, branch := branch } basePath).2
      ≠ processRepoPath { name := nm, path := p, branch := branch } basePath ∧
    (∀ command packages skipPush env,
      ∀ eff ∈ (processRepo { name := nm, path := p, branch := branch }
                  command packages false skipPush basePath env).trace,
        ∃ c, eff = Eff.run c (some (pathResolve basePath nm))) := by
  refine ⟨?_, rfl, ?_, ?_⟩
  · simp [getRepoInfo, hp]
  · simp only [getRepoInfo, processRepoPath, hp, hn, if_pos]
    intro h
    exact hne (pathResolve_right_inj h).symm
  · intro command packages skipPush env eff heff
    exact processRepo_dirs _ _ _ _ _ _ _ eff heff

/-- C10 witness at a concrete descriptor. -/
theorem c10_witness :
    truthy "repo-name" = true ∧ truthy "custom-path" = true ∧
      "repo-name" ≠ "custom-path" ∧
    ((getRepoInfo { name := "repo-name", path := "custom-path", branch := "b" } "/base").2
        = pathResolve "/base" "custom-path" ∧
      processRepoPath { name := "repo-name", path := "custom-path", branch := "b" } "/base"
        = pathResolve "/base" "repo-name" ∧
      (getRepoInfo { name := "repo-name", path := "custom-path", branch := "b" } "/base").2
        ≠ processRepoPath { name := "repo-name", path := "custom-path", branch := "b" } "/base" ∧
      (∀ command packages skipPush env,
        ∀ eff ∈ (processRepo { name := "repo-name", path := "custom-path", branch := "b" }
                    command packages false skipPush "/base" env).trace,
          ∃ c, eff = Eff.run c (some (pathResolve "/base" "repo-name")))) :=
  ⟨by decide, by decide, by decide,
    c10_checked_dir_ne_mutated_dir "/base" "repo-name" "custom-path" "b"
      (by decide) (by decide) (by decide)⟩

/-- C4: for an install/uninstall task whose steps reach the commit and
whose commit fails with message `m`, if `m` contains "nothing to commit"
or "no changes added to commit" the task ends Skipped (not Error), no
push is issued, and the Skipped record is not counted as a failure by the
exit-code predicate; any other commit failure ends Error (which the
exit-code predicate does count). -/
theorem c4_benign_commit_skipped (repo : RepoDesc) (command : String)
    (packages : List String) (skipPush : Bool) (basePath : String)
    (env : ProcEnv) (m : String)
    (hcb : env.checkoutB = .ok ()) (hnp : env.npm = .ok ()) (had : env.add = .ok ())
    (hcm : env.commit = .error m) (hwl : env.writeLog = .ok ()) :
    (isBenignCommitError m = true →
      (processRepo repo command packages false skipPush basePath env).pushed
        = [.statusRec repo.name "⚠️ Skipped"
            ("No changes to commit (log: " ++ (repo.name ++ ".log") ++ ")")] ∧
      (∀ b d, Eff.run (Cmd.push b) d
        ∉ (processRepo repo command packages false skipPush basePath env).trace) ∧
      (processRepo repo command packages false skipPush basePath env).thrown = none ∧
      handleReposFailCheck (.statusRec repo.name "⚠️ Skipped"
        ("No changes to commit (log: " ++ (repo.name ++ ".log") ++ ")")) = some false) ∧
    (isBenignCommitError m = false →
      (processRepo repo command packages false skipPush basePath env).pushed
        = [.statusRec repo.name "❌ Error"
            (firstLine m ++ " (log: " ++ (repo.name ++ ".log") ++ ")")] ∧
      (∀ b d, Eff.run (Cmd.push b) d
        ∉ (processRepo repo command packages false skipPush basePath env).trace) ∧
      handleReposFailCheck (.statusRec repo.name "❌ Error"
        (firstLine m ++ " (log: " ++ (repo.name ++ ".log") ++ ")")) = some true) := by
  constructor
  · intro hben
    refine ⟨?_, ?_, ?_, ?_⟩
    · simp [processRepo, hcb, hnp, had, hcm, hwl, hben]
    · intro b d
      by_cases hb : truthy repo.branch <;>
        simp [processRepo, hcb, hnp, had, hcm, hwl, hben, hb]
    · simp [processRepo, hcb, hnp, had, hcm, hwl, hben]
    · simp only [handleReposFailCheck, statusOf, Option.map_some]
      congr 1
  · intro hben
    refine ⟨?_, ?_, ?_⟩
    · simp [processRepo, hcb, hnp, had, hcm, hwl, hben]
    · intro b d
      by_cases hb : truthy repo.branch <;>
        simp [processRepo, hcb, hnp, had, hcm, hwl, hben, hb]
    · simp only [handleReposFailCheck, statusOf, Option.map_some]
      congr 1

/-- C4 witness at a concrete benign message, environment and descriptor. -/
theorem c4_witness :
    (({ checkoutB := .ok (), npm := .ok (), add := .ok ()
        commit := .error "nothing to commit, working tree clean"
        push := .ok (), writeLog := .ok () } : ProcEnv).commit
      = .error "nothing to commit, working tree clean") ∧
    isBenignCommitError "nothing to commit, working tree clean" = true ∧
    (processRepo { name := "web-app1", branch := "feat/x" } "install" ["lodash"]
        false false "/base"
        { checkoutB := .ok (), npm := .ok (), add := .ok ()
          commit := .error "nothing to commit, working tree clean"
          push := .ok (), writeLog := .ok () }).pushed
      = [.statusRec "web-app1" "⚠️ Skipped"
          ("No changes to commit (log: " ++ ("web-app1" ++ ".log") ++ ")")] ∧
    (∀ b d, Eff.run (Cmd.push b) d
      ∉ (processRepo { name := "web-app1", branch := "feat/x" } "install" ["lodash"]
          false false "/base"
          { checkoutB := .ok (), npm := .ok (), add := .ok ()
            commit := .error "nothing to commit, working tree clean"
            push := .ok (), writeLog := .ok () }).trace) := by
  refine ⟨rfl, by decide, ?_, ?_⟩
  · exact ((c4_benign_commit_skipped { name := "web-app1", branch := "feat/x" }
      "install" ["lodash"] false "/base" _ "nothing to commit, working tree clean"
      rfl rfl rfl rfl rfl).1 (by decide)).1
  · exact ((c4_benign_commit_skipped { name := "web-app1", branch := "feat/x" }
      "install" ["lodash"] false "/base" _ "nothing to commit, working tree clean"
      rfl rfl rfl rfl rfl).1 (by decide)).2.1

/-- C5 counterexample: in the current resolver
(`ensureBranchFromLocalMain`), a failing fetch is not terminal — with the
target branch absent locally (rev-parse fails) and both fetches failing,
the resolver still reports success and still attempts branch creation
(`checkout --no-track -b` appears in its trace), contradicting the claim
that a fetch failure terminates resolution without any creation attempt. -/
theorem c5_counterexample :
    (ensureBranchFromLocalMain "/base/web-app1" "feat/x"
        { revParseOk := false, fetchOriginOk := false, fetchOriginMainOk := false
          branchForceOk := false, checkoutNoTrackOk := true }).1 = true ∧
    Eff.run (Cmd.checkoutNoTrackB "feat/x") (some "/base/web-app1")
      ∈ (ensureBranchFromLocalMain "/base/web-app1" "feat/x"
          { revParseOk := false, fetchOriginOk := false, fetchOriginMainOk := false
            branchForceOk := false, checkoutNoTrackOk := true }).2 ∧
    (Cmd.checkoutNoTrackB "feat/x").isBranchCreation = true := by
  decide

/-- C5 (amended): the fetch-failure-is-terminal rule holds for the
earlier resolver `ensureBranchExists`: when its `fetch --prune` fails it
returns `false` having issued only the fetch, with no branch-creation
command in its trace.  The current resolver `ensureBranchFromLocalMain`
instead discards the fetch results and attempts creation regardless (see
the counterexample). -/
theorem c5_ensureBranchExists_fetch_terminal (repoPath branch remote : String)
    (env : EnsureEnv) (hf : env.fetchPruneOk = false) :
    ensureBranchExists repoPath branch remote env
      = (false, [Eff.run (Cmd.fetchPrune remote) (some repoPath)]) ∧
    (∀ c d, Eff.run c d ∈ (ensureBranchExists repoPath branch remote env).2 →
      c.isBranchCreation = false) := by
  constructor
  · simp [ensureBranchExists, hf]
  · intro c d hc
    simp [ensureBranchExists, hf] at hc
    rw [hc.1]
    rfl

/-- C5 witness: the amended theorem at a concrete failing-fetch
environment. -/
theorem c5_witness :
    (({ fetchPruneOk := false, localShowRefOk := false, remoteListOk := false
        remoteListStdout := "", checkoutTrackOk := false, fetchBranchRefOk := false
        checkoutAfterFetchOk := false, fetchMainRefOk := false
        checkoutFromRemoteMainOk := false, fallbackLocalMainOk := false } : EnsureEnv).fetchPruneOk
      = false) ∧
    (ensureBranchExists "/base/web-app1" "feat/x" "origin"
        { fetchPruneOk := false, localShowRefOk := false, remoteListOk := false
          remoteListStdout := "", checkoutTrackOk := false, fetchBranchRefOk := false
          checkoutAfterFetchOk := false, fetchMainRefOk := false
          checkoutFromRemoteMainOk := false, fallbackLocalMainOk := false }
      = (false, [Eff.run (Cmd.fetchPrune "origin") (some "/base/web-app1")])) :=
  ⟨rfl, (c5_ensureBranchExists_fetch_terminal "/base/web-app1" "feat/x" "origin" _ rfl).1⟩

/-- C6 counterexample: the current resolver `ensureBranchFromLocalMain`
never creates a tracking branch: on the creation path its entire trace
contains no `checkout --track -b` and it does create the branch from
(fast-forwarded) local `main` via `checkout --no-track -b`; its behaviour
does not consult the remote branch at all, so this holds in particular
when `origin/<branch>` exists. -/
theorem c6_counterexample :
    (ensureBranchFromLocalMain "/base/web-app1" "feat/x"
        { revParseOk := false, fetchOriginOk := true, fetchOriginMainOk := true
          branchForceOk := true, checkoutNoTrackOk := true }).1 = true ∧
    ((ensureBranchFromLocalMain "/base/web-app1" "feat/x"
        { revParseOk := false, fetchOriginOk := true, fetchOriginMainOk := true
          branchForceOk := true, checkoutNoTrackOk := true }).2.all
      (fun e => ! e.isTrackingCheckout)) = true ∧
    Eff.run (Cmd.checkoutNoTrackB "feat/x") (some "/base/web-app1")
      ∈ (ensureBranchFromLocalMain "/base/web-app1" "feat/x"
          { revParseOk := false, fetchOriginOk := true, fetchOriginMainOk := true
            branchForceOk := true, checkoutNoTrackOk := true }).2 ∧
    Eff.isFromMainCreation
      (Eff.run (Cmd.checkoutNoTrackB "feat/x") (some "/base/web-app1")) = true := by
  decide

/-- C6 (amended): the remote-tracking behaviour holds for the earlier
resolver `ensureBranchExists`: when the fetch succeeds, the branch is
absent locally, and `<remote>/<branch>` shows up in `branch -r --list`,
it creates a local branch tracking the remote one (`checkout --track -b`)
and, when that checkout succeeds, terminates with success having issued
no from-`main` creation.  The current resolver `ensureBranchFromLocalMain`
always creates from local `main` instead (see the counterexample). -/
theorem c6_ensureBranchExists_tracks_remote (repoPath branch remote : String)
    (env : EnsureEnv) (h1 : env.fetchPruneOk = true) (h2 : env.localShowRefOk = false)
    (h3 : env.remoteListOk = true) (h4 : 0 < (jsTrim env.remoteListStdout).length)
    (h5 : env.checkoutTrackOk = true) :
    ensureBranchExists repoPath branch remote env
      = (true, [Eff.run (Cmd.fetchPrune remote) (some repoPath),
                Eff.run (Cmd.showRef branch) (some repoPath),
                Eff.run (Cmd.branchRemoteList remote branch) (some repoPath),
                Eff.run (Cmd.checkoutTrack branch (remote ++ "/" ++ branch)) (some repoPath)]) ∧
    ((ensureBranchExists repoPath branch remote env).2.all
      (fun e => ! e.isFromMainCreation)) = true := by
  have hall : ensureBranchExists repoPath branch remote env
      = (true, [Eff.run (Cmd.fetchPrune remote) (some repoPath),
                Eff.run (Cmd.showRef branch) (some repoPath),
                Eff.run (Cmd.branchRemoteList remote branch) (some repoPath),
                Eff.run (Cmd.checkoutTrack branch (remote ++ "/" ++ branch)) (some repoPath)]) := by
    simp [ensureBranchExists, h1, h2, h3, h4, h5]
  refine ⟨hall, ?_⟩
  rw [hall]
  rfl

/-- C6 witness at a concrete environment where the remote has the branch. -/
theorem c6_witness :
    (({ fetchPruneOk := true, localShowRefOk := false, remoteListOk := true
        remoteListStdout := "  origin/feat/x\n", checkoutTrackOk := true
        fetchBranchRefOk := false, checkoutAfterFetchOk := false
        fetchMainRefOk := false, checkoutFromRemoteMainOk := false
        fallbackLocalMainOk := false } : EnsureEnv).remoteListOk = true) ∧
    0 < (jsTrim "  origin/feat/x\n").length ∧
    ensureBranchExists "/base/web-app2" "feat/x" "origin"
        { fetchPruneOk := true, localShowRefOk := false, remoteListOk := true
          remoteListStdout := "  origin/feat/x\n", checkoutTrackOk := true
          fetchBranchRefOk := false, checkoutAfterFetchOk := false
          fetchMainRefOk := false, checkoutFromRemoteMainOk := false
          fallbackLocalMainOk := false }
      = (true, [Eff.run (Cmd.fetchPrune "origin") (some "/base/web-app2"),
                Eff.run (Cmd.showRef "feat/x") (some "/base/web-app2"),
                Eff.run (Cmd.branchRemoteList "origin" "feat/x") (some "/base/web-app2"),
                Eff.run (Cmd.checkoutTrack "feat/x" "origin/feat/x") (some "/base/web-app2")]) :=
  ⟨rfl, by decide,
    (c6_ensureBranchExists_tracks_remote "/base/web-app2" "feat/x" "origin" _
      rfl rfl rfl (by decide) rfl).1⟩

/-- C7 counterexample: for a repository whose target branch already exists
locally (the `show-ref` probe succeeds), the pipeline still runs
`git checkout -B <branch>` inside `processRepo` — a mutating operation
that resets the existing branch pointer to the current HEAD — so a later
pipeline step does reset the branch pointer. -/
theorem c7_counterexample :
    Eff.run (Cmd.checkoutB "feat/x") (some "/base/web-app1")
      ∈ (handleReposTask { name := "web-app1", branch := "feat/x" } "install" ["lodash"]
          false false "/base"
          { pathExists := true, showRefOk := true
            branchEnv := { revParseOk := true, fetchOriginOk := true
                           fetchOriginMainOk := true, branchForceOk := true
                           checkoutNoTrackOk := true }
            procEnv := ⟨.ok (), .ok (), .ok (), .ok (), .ok (), .ok ()⟩ }).trace ∧
    (Cmd.checkoutB "feat/x").resetsBranchPointer = true := by
  decide

/-- C7 (amended): branch resolution itself is an idempotent pure read
when the branch exists locally — `ensureBranchFromLocalMain` returns
`true` having issued only the read-only `rev-parse --verify` probe, so a
second invocation performs the same single read and no mutating git
command; however `processRepo` subsequently runs `git checkout -B`,
which resets the existing branch (see the counterexample). -/
theorem c7_local_existing_branch_pure_read (repoPath branchName : String)
    (env : LocalMainEnv) (h : env.revParseOk = true) :
    ensureBranchFromLocalMain repoPath branchName env
      = (true, [Eff.run (Cmd.revParse branchName) (some repoPath)]) ∧
    (Cmd.revParse branchName).isReadOnly = true := by
  constructor
  · simp [ensureBranchFromLocalMain, h]
  · rfl

/-- C7 witness at a concrete environment where the branch exists. -/
theorem c7_witness :
    (({ revParseOk := true, fetchOriginOk := false, fetchOriginMainOk := false
        branchForceOk := false, checkoutNoTrackOk := false } : LocalMainEnv).revParseOk
      = true) ∧
    ensureBranchFromLocalMain "/base/web-app1" "feat/x"
        { revParseOk := true, fetchOriginOk := false, fetchOriginMainOk := false
          branchForceOk := false, checkoutNoTrackOk := false }
      = (true, [Eff.run (Cmd.revParse "feat/x") (some "/base/web-app1")]) :=
  ⟨rfl, (c7_local_existing_branch_pure_read "/base/web-app1" "feat/x" _ rfl).1⟩

/-- C8 counterexample: in dry-run mode, for a repository that exists and
declares a branch, `handleRepos` still executes a git command — the
`localBranchExists` probe (`git show-ref`) runs before the dry-run
short-circuit — so the trace of the dry-run task is not empty. -/
theorem c8_counterexample :
    (handleReposTask { name := "web-app1", branch := "feat/x" } "install" ["lodash"]
        true false "/base"
        { pathExists := true, showRefOk := true
          branchEnv := ⟨true, true, true, true, true⟩
          procEnv := ⟨.ok (), .ok (), .ok (), .ok (), .ok (), .ok ()⟩ }).trace
      = [Eff.run (Cmd.showRef "feat/x") (some "/base/web-app1")] ∧
    (handleReposTask { name := "web-app1", branch := "feat/x" } "install" ["lodash"]
        true false "/base"
        { pathExists := true, showRefOk := true
          branchEnv := ⟨true, true, true, true, true⟩
          procEnv := ⟨.ok (), .ok (), .ok (), .ok (), .ok (), .ok ()⟩ }).trace ≠ [] := by
  decide

/-- C8 (amended): in dry-run mode no mutating git or package-manager
command is executed — the only command a dry-run task may issue is the
read-only local-branch probe `git show-ref` — and every emitted dry-run
record carries a description beginning with "Would", naming the action
that would have run. -/
theorem c8_dry_run_purity (repo : RepoDesc) (command : String)
    (packages : List String) (dryRun skipPush : Bool) (basePath : String)
    (env : TaskEnv) (hdr : dryRun = true) :
    (∀ e ∈ (handleReposTask repo command packages dryRun skipPush basePath env).trace,
        ∃ b d, e = Eff.run (Cmd.showRef b) d ∧ Cmd.isReadOnly (Cmd.showRef b) = true) ∧
    (∀ r ∈ (handleReposTask repo command packages dryRun skipPush basePath env).records,
        r.isDryRunRec = true → startsWithStr "Would" r.infoOrMessage = true) := by
  subst hdr
  constructor
  · intro e he
    simp [handleReposTask] at he
    repeat' split at he
    all_goals try simp at he
    all_goals repeat' (rcases he with rfl | he)
    all_goals exact ⟨_, _, rfl, rfl⟩
  · intro r hr hdry
    simp [handleReposTask] at hr
    repeat' split at hr
    all_goals try simp at hr
    all_goals try subst hr
    all_goals simp only [ResultRecord.isDryRunRec] at hdry
    all_goals try exact (Bool.false_ne_true hdry).elim
    all_goals simp only [ResultRecord.infoOrMessage, Option.getD_some]
    all_goals first
      | exact startsWithStr_append_of _ _ _ (by decide)
      | exact startsWithStr_append_of _ _ _ (startsWithStr_append_of _ _ _ (by decide))

/-- C8 witness: the amended theorem at a concrete dry-run input. -/
theorem c8_witness :
    (true = true) ∧
    ((∀ e ∈ (handleReposTask { name := "web-app1", branch := "feat/x" } "install"
          ["lodash"] true false "/base"
          { pathExists := true, showRefOk := false
            branchEnv := ⟨true, true, true, true, true⟩
            procEnv := ⟨.ok (), .ok (), .ok (), .ok (), .ok (), .ok ()⟩ }).trace,
        ∃ b d, e = Eff.run (Cmd.showRef b) d ∧ Cmd.isReadOnly (Cmd.showRef b) = true) ∧
      (∀ r ∈ (handleReposTask { name := "web-app1", branch := "feat/x" } "install"
          ["lodash"] true false "/base"
          { pathExists := true, showRefOk := false
            branchEnv := ⟨true, true, true, true, true⟩
            procEnv := ⟨.ok (), .ok (), .ok (), .ok (), .ok (), .ok ()⟩ }).records,
        r.isDryRunRec = true → startsWithStr "Would" r.infoOrMessage = true)) :=
  ⟨rfl, c8_dry_run_purity { name := "web-app1", branch := "feat/x" } "install"
    ["lodash"] true false "/base"
    { pathExists := true, showRefOk := false
      branchEnv := ⟨true, true, true, true, true⟩
      procEnv := ⟨.ok (), .ok (), .ok (), .ok (), .ok (), .ok ()⟩ } rfl⟩

/-- C3: outcome completeness — every `handleRepos` task appends exactly
one record whatever control path it takes (path missing, dry-run, branch
failure, benign skip, error, success, or an exception escaping
`processRepo`), so a run over the selected repositories produces exactly
as many records as there are selected repositories. -/
theorem c3_outcome_completeness (selected : List RepoDesc) (command : String)
    (packages : List String) (dryRun skipPush : Bool) (basePath : String)
    (envs : RepoDesc → TaskEnv) :
    (handleReposRun selected command packages dryRun skipPush basePath envs).length
      = selected.length ∧
    (∀ repo env,
      (handleReposTask repo command packages dryRun skipPush basePath env).records.length
        = 1) := by
  constructor
  · induction selected with
    | nil => simp [handleReposRun]
    | cons r rs ih =>
      simp only [handleReposRun, List.map_cons, List.flatten_cons,
        List.length_append, List.length_cons] at ih ⊢
      rw [handleReposTask_one_record, ih]
      omega
  · intro repo env
    exact handleReposTask_one_record repo command packages dryRun skipPush basePath env

/-- C1 counterexample: the legacy sequential runner `src/batch.js` does
change the host process working directory — its per-repository loop body
calls `process.chdir(repoPath)` and then issues its commands (here the
npm invocation) with no explicit working-directory argument at all. -/
theorem c1_counterexample :
    Eff.chdir "/base/web-app1"
      ∈ (legacyBatchTask { name := "web-app1", branch := "feat/x" } "install" ["lodash"]
          false false "/base" ⟨.ok (), .ok (), .ok (), .ok (), .ok ()⟩).2 ∧
    Eff.run (Cmd.npm "install" ["lodash"]) none
      ∈ (legacyBatchTask { name := "web-app1", branch := "feat/x" } "install" ["lodash"]
          false false "/base" ⟨.ok (), .ok (), .ok (), .ok (), .ok ()⟩).2 := by
  decide

/-- C1 (amended): the current orchestrator (`handleRepos` together with
`processRepo`) never emits a `chdir` effect: every external command
invocation of a task carries an explicitly threaded directory resolved
from that task own descriptor — `basePath/(path||name)` for the
pre-flight git commands, `basePath/name` for the `processRepo` pipeline
(the two coincide whenever `path` is absent or equal to `name`). -/
theorem c1_explicit_directory_threading (repo : RepoDesc) (command : String)
    (packages : List String) (dryRun skipPush : Bool) (basePath : String)
    (env : TaskEnv) :
    ∀ e ∈ (handleReposTask repo command packages dryRun skipPush basePath env).trace,
      (∃ c, e = Eff.run c (some (getRepoInfo repo basePath).2)) ∨
      (∃ c, e = Eff.run c (some (processRepoPath repo basePath))) := by
  intro e
  simp only [handleReposTask]
  repeat' split
  all_goals intro he
  all_goals simp only [List.mem_append, List.mem_cons, List.mem_singleton,
    List.not_mem_nil, or_false, false_or] at he
  all_goals repeat' (rcases he with he | he)
  all_goals first
    | exact Or.inl ⟨_, rfl⟩
    | exact Or.inr ⟨_, rfl⟩
    | exact Or.inl (ensureBranchFromLocalMain_dirs _ _ _ _ he)
    | exact Or.inr (processRepo_dirs _ _ _ _ _ _ _ _ he)

/-- C1 witness: a concrete effect of a concrete task, shown to carry its
explicit directory. -/
theorem c1_witness :
    Eff.run (Cmd.showRef "feat/x") (some "/base/web-app1")
      ∈ (handleReposTask { name := "web-app1", branch := "feat/x" } "install" ["lodash"]
          false true "/base"
          { pathExists := true, showRefOk := true
            branchEnv := ⟨true, true, true, true, true⟩
            procEnv := ⟨.ok (), .ok (), .ok (), .ok (), .ok (), .ok ()⟩ }).trace ∧
    ((∃ c, Eff.run (Cmd.showRef "feat/x") (some "/base/web-app1")
        = Eff.run c (some (getRepoInfo { name := "web-app1", branch := "feat/x" } "/base").2)) ∨
      (∃ c, Eff.run (Cmd.showRef "feat/x") (some "/base/web-app1")
        = Eff.run c (some (processRepoPath { name := "web-app1", branch := "feat/x" } "/base")))) :=
  ⟨by decide,
    c1_explicit_directory_threading { name := "web-app1", branch := "feat/x" }
      "install" ["lodash"] false true "/base"
      { pathExists := true, showRefOk := true
        branchEnv := ⟨true, true, true, true, true⟩
        procEnv := ⟨.ok (), .ok (), .ok (), .ok (), .ok (), .ok ()⟩ }
      (Eff.run (Cmd.showRef "feat/x") (some "/base/web-app1")) (by decide)⟩

end BatchBump
